import Mathlib

/-!
Verification development for `generate_all_repos_raw_urls.py`: a shallow
embedding of the script's core components (rate-limited HTTP client,
repository lister, tree walker, URL row builder, concurrent aggregator)
and theorems about their behaviour.

Network I/O is modelled by oracles: a function from request identity
(URL or request record, plus an attempt index) to either a transport
failure (`Except.error msg`, modelling a raised `requests` exception)
or an HTTP response (`Except.ok r`, any status code).  Wall-clock time
is a single integer `now` standing for `int(time.time())`.
-/

/-- An HTTP response as the script observes it: status code, the two
rate-limit headers (`X-RateLimit-Remaining` as the raw header string,
`X-RateLimit-Reset` already parsed to an integer when present), the
parsed JSON body, and the raw text used in error messages. -/
structure Response (β : Type) where
  status : Nat
  rateLimitRemaining : Option String
  rateLimitReset : Option Int
  body : β
  text : String
deriving Repr, DecidableEq

/-- Result of one `github_get` call: the final response, the list of
sleep durations performed (in seconds, in order), and the number of
HTTP requests issued. -/
structure GetResult (β : Type) where
  response : Response β
  waits : List Int
  requests : Nat
deriving Repr, DecidableEq

/-- `int(r.headers.get("X-RateLimit-Reset", time.time() + 60))`. -/
def resetOrDefault {β : Type} (r : Response β) (now : Int) : Int :=
  match r.rateLimitReset with
  | some t => t
  | none => now + 60

/-- `github_get` (source lines 31-44): issue the request; if the response
is 403 with `X-RateLimit-Remaining == "0"`, sleep
`max(5, reset - int(time.time()) + 3)` seconds and reissue the request
exactly once, returning the second response as-is; otherwise return the
first response unmodified.  `attempt n` is the oracle for the n-th
request of this call; a transport-level failure propagates. -/
def github_get {β : Type} (attempt : Nat → Except String (Response β)) (now : Int) :
    Except String (GetResult β) :=
  match attempt 0 with
  | .error e => .error e
  | .ok r =>
    if r.status = 403 ∧ r.rateLimitRemaining = some "0" then
      let wait := max 5 (resetOrDefault r now - now + 3)
      match attempt 1 with
      | .error e => .error e
      | .ok r2 => .ok ⟨r2, [wait], 2⟩
    else .ok ⟨r, [], 1⟩

/-- A repository record as returned by the listing endpoint, with the
fields the script reads: `name`, `default_branch` (absent/null and `""`
both modelled through `Option`/empty string), `private`. -/
structure RepoItem where
  name : String
  default_branch : Option String
  isPrivate : Bool
deriving Repr, DecidableEq

/-- One node of a recursive git tree: the blob/tree discriminator
string, the repo-relative path, and the optional byte size. -/
structure TreeNode where
  type_ : String
  path : String
  size : Option Int
deriving Repr, DecidableEq

/-- The JSON document returned by the tree endpoint; `tree_json.get("tree", [])`. -/
structure TreeJson where
  tree : List TreeNode
deriving Repr, DecidableEq

/-- An error escaping a fetch helper: either a transport-level exception
from the HTTP layer or a `RuntimeError` raised on a bad status. -/
inductive FetchError where
  | transport (msg : String)
  | runtime (msg : String)
deriving Repr, DecidableEq

/-- `str(e)` for a caught exception. -/
def FetchError.message : FetchError → String
  | .transport m => m
  | .runtime m => m

def GITHUB_API : String := "https://api.github.com"

def PER_PAGE : Nat := 100

/-- URL of the direct recursive-tree request (source line 73). -/
def tree_url (owner repo branch : String) : String :=
  GITHUB_API ++ "/repos/" ++ owner ++ "/" ++ repo ++ "/git/trees/" ++ branch

/-- URL of the qualified-ref fallback request (source line 77). -/
def tree_url_qualified (owner repo branch : String) : String :=
  GITHUB_API ++ "/repos/" ++ owner ++ "/" ++ repo ++ "/git/trees/refs/heads/" ++ branch

/-- The `RuntimeError` message of a failed tree fetch (source line 80). -/
def tree_error_msg (owner repo branch : String) (status : Nat) (text : String) : String :=
  "Gagal ambil tree " ++ owner ++ "/" ++ repo ++ "@" ++ branch ++ ": " ++
    toString status ++ " " ++ text

/-- Outcome of `get_tree_recursive`: the returned document or the raised
error, together with the list of URLs it passed to `github_get`, in order. -/
structure TreeFetch where
  result : Except FetchError TreeJson
  urls : List String

/-- `get_tree_recursive` (source lines 69-81): request the recursive tree
directly; on a 404 retry once against `refs/heads/<branch>`; any final
non-200 status raises.  `net url n` is the oracle for the n-th attempt of
the `github_get` call against `url`. -/
def get_tree_recursive (owner repo branch : String)
    (net : String → Nat → Except String (Response TreeJson)) (now : Int) : TreeFetch :=
  let url := tree_url owner repo branch
  match github_get (net url) now with
  | .error e => ⟨.error (.transport e), [url]⟩
  | .ok g =>
    if g.response.status = 404 then
      let url2 := tree_url_qualified owner repo branch
      match github_get (net url2) now with
      | .error e => ⟨.error (.transport e), [url, url2]⟩
      | .ok g2 =>
        if g2.response.status ≠ 200 then
          ⟨.error (.runtime (tree_error_msg owner repo branch g2.response.status
            g2.response.text)), [url, url2]⟩
        else ⟨.ok g2.response.body, [url, url2]⟩
    else if g.response.status ≠ 200 then
      ⟨.error (.runtime (tree_error_msg owner repo branch g.response.status
        g.response.text)), [url]⟩
    else ⟨.ok g.response.body, [url]⟩

/-- `repo_item.get("default_branch") or "main"`: Python `or` falls back to
`"main"` when the field is absent, `None`, or the empty string. -/
def branchOf (repo_item : RepoItem) : String :=
  match repo_item.default_branch with
  | none => "main"
  | some b => if b = "" then "main" else b

/-- One output row (source lines 91 and 100); success rows carry no
`error` key, modelled as `error = none`. -/
structure Row where
  repo : String
  path : Option String
  size : Option Int
  branch : String
  raw_url : Option String
  error : Option String
deriving Repr, DecidableEq

/-- The raw-content URL f-string of source line 99, verbatim concatenation
with no percent-encoding. -/
def raw_url_for (owner repo_name branch path : String) : String :=
  "https://raw.githubusercontent.com/" ++ owner ++ "/" ++ repo_name ++ "/" ++
    branch ++ "/" ++ path

/-- The row appended for one retained blob node (source line 100). -/
def success_row (owner repo_name branch : String) (node : TreeNode) : Row :=
  ⟨repo_name, some node.path, node.size, branch,
    some (raw_url_for owner repo_name branch node.path), none⟩

/-- The sentinel row returned when the tree fetch raised (source line 91). -/
def error_row (repo_name branch msg : String) : Row :=
  ⟨repo_name, none, none, branch, none, some msg⟩

/-- The `for node in tree_json.get("tree", [])` loop of source lines
94-100: skip any node whose type is not `"blob"`, otherwise append the
success row. -/
def blob_rows (owner repo_name branch : String) : List TreeNode → List Row
  | [] => []
  | node :: rest =>
    if node.type_ ≠ "blob" then blob_rows owner repo_name branch rest
    else success_row owner repo_name branch node :: blob_rows owner repo_name branch rest

/-- `build_raw_rows_for_repo` (source lines 84-101): fetch the tree for
the repository's branch; a raised exception of any kind is caught and
turned into a single error row; otherwise build one row per blob node.
Also exposes (as ghost instrumentation) the tree-request URLs issued. -/
def build_raw_rows_for_repo (owner : String) (repo_item : RepoItem)
    (net : String → Nat → Except String (Response TreeJson)) (now : Int) :
    List Row × List String :=
  let repo_name := repo_item.name
  let branch := branchOf repo_item
  let fetch := get_tree_recursive owner repo_name branch net now
  match fetch.result with
  | .error e => ([error_row repo_name branch e.message], fetch.urls)
  | .ok tree_json => (blob_rows owner repo_name branch tree_json.tree, fetch.urls)

/-- The aggregation loop of `main` (source lines 123-134): the rows of
every repository's task, combined.  `build_raw_rows_for_repo` is total in
this model (the script catches every exception its body can raise around
the only raising call), so every task contributes its row list; ordering
is completion order in the script, which no claim depends on, and is
taken here as submission order. -/
def main_collect (owner : String)
    (net : String → Nat → Except String (Response TreeJson)) (now : Int)
    (repos : List RepoItem) : List Row :=
  repos.flatMap (fun repo_item => (build_raw_rows_for_repo owner repo_item net now).1)

/-- One page request of the lister, with the query parameters of source
line 55. -/
structure ListRequest where
  page : Nat
  per_page : Nat
  type_ : String
  sort : String
  direction : String
deriving Repr, DecidableEq

/-- The request issued for page `page`: `per_page=100, type=all,
sort=full_name, direction=asc`. -/
def list_req (page : Nat) : ListRequest :=
  ⟨page, PER_PAGE, "all", "full_name", "asc"⟩

/-- The `RuntimeError` message of a failed listing page (source line 58). -/
def list_error_msg (owner : String) (status : Nat) (text : String) : String :=
  "Gagal list repos " ++ owner ++ ": " ++ toString status ++ " " ++ text

/-- The `while True` pagination loop of `list_repos_for_user` (source
lines 51-66), with explicit fuel for termination: `none` means the fuel
ran out before the loop stopped.  On success also returns the list of
page requests issued, in order. -/
def list_repos_loop (owner : String)
    (net : ListRequest → Nat → Except String (Response (List RepoItem))) (now : Int) :
    Nat → List RepoItem → Nat → Option (Except FetchError (List RepoItem) × List ListRequest)
  | _, _, 0 => none
  | page, acc, fuel + 1 =>
    let req := list_req page
    match github_get (net req) now with
    | .error e => some (.error (.transport e), [req])
    | .ok g =>
      if g.response.status ≠ 200 then
        some (.error (.runtime (list_error_msg owner g.response.status g.response.text)),
          [req])
      else
        let items := g.response.body
        if items = [] then some (.ok acc, [req])
        else if items.length < PER_PAGE then some (.ok (acc ++ items), [req])
        else
          match list_repos_loop owner net now (page + 1) (acc ++ items) fuel with
          | none => none
          | some (res, reqs) => some (res, req :: reqs)

/-- `list_repos_for_user` (source lines 47-66): start at page 1 with an
empty accumulator. -/
def list_repos_for_user (owner : String)
    (net : ListRequest → Nat → Except String (Response (List RepoItem))) (now : Int)
    (fuel : Nat) : Option (Except FetchError (List RepoItem) × List ListRequest) :=
  list_repos_loop owner net now 1 [] fuel

/-- The final response of the `github_get` call for page `j`. -/
def page_result (net : ListRequest → Nat → Except String (Response (List RepoItem)))
    (now : Int) (j : Nat) : Except String (GetResult (List RepoItem)) :=
  github_get (net (list_req j)) now

/-- The items of page `j` (empty when the call failed). -/
def page_items (net : ListRequest → Nat → Except String (Response (List RepoItem)))
    (now : Int) (j : Nat) : List RepoItem :=
  match page_result net now j with
  | .ok g => g.response.body
  | .error _ => []

/-- Page `j` came back 200 with a full page of items, so the loop goes on. -/
def page_full (net : ListRequest → Nat → Except String (Response (List RepoItem)))
    (now : Int) (j : Nat) : Prop :=
  ∃ g, page_result net now j = .ok g ∧ g.response.status = 200 ∧
    PER_PAGE ≤ g.response.body.length

/-- Page `j` came back 200 with zero items or a short page, so the loop
stops successfully. -/
def page_last (net : ListRequest → Nat → Except String (Response (List RepoItem)))
    (now : Int) (j : Nat) : Prop :=
  ∃ g, page_result net now j = .ok g ∧ g.response.status = 200 ∧
    g.response.body.length < PER_PAGE

/-- Page `j` failed: transport error, or a non-200 status. -/
def page_fatal (net : ListRequest → Nat → Except String (Response (List RepoItem)))
    (now : Int) (j : Nat) : Prop :=
  (∃ e, page_result net now j = .error e) ∨
    ∃ g, page_result net now j = .ok g ∧ g.response.status ≠ 200

/-- Outcome of a whole run, at the boundary the spec keeps in scope:
whether the process exits successfully and whether any output file is
written. -/
structure RunResult where
  exitSuccess : Bool
  wroteOutput : Bool
deriving Repr, DecidableEq

/-- The tail of `main` (source lines 117-162): list the repositories
(a listing failure escapes and the process dies non-zero), optionally
filter to public ones, aggregate all rows, and when zero rows were
collected exit 0 having written nothing; otherwise write the output
files.  `none` when the lister's fuel ran out. -/
def main_run (owner : String)
    (netList : ListRequest → Nat → Except String (Response (List RepoItem)))
    (netTree : String → Nat → Except String (Response TreeJson)) (now : Int)
    (fuel : Nat) (onlyPublic : Bool) : Option RunResult :=
  match list_repos_for_user owner netList now fuel with
  | none => none
  | some (.error _, _) => some ⟨false, false⟩
  | some (.ok repos0, _) =>
    let repos := if onlyPublic then repos0.filter (fun r => !r.isPrivate) else repos0
    let all_rows := main_collect owner netTree now repos
    if all_rows = [] then some ⟨true, false⟩ else some ⟨true, true⟩

instance decEqExcept {ε α : Type} [DecidableEq ε] [DecidableEq α] :
    DecidableEq (Except ε α) := fun a b =>
  match a, b with
  | .error e, .error f =>
    if h : e = f then .isTrue (by rw [h]) else .isFalse (by simp [h])
  | .ok x, .ok y =>
    if h : x = y then .isTrue (by rw [h]) else .isFalse (by simp [h])
  | .error _, .ok _ => .isFalse (by simp)
  | .ok _, .error _ => .isFalse (by simp)

/-- A concrete repository record with an ordinary default branch. -/
def repo0 : RepoItem := ⟨"r", some "main", false⟩

/-- A concrete repository record whose `default_branch` field is absent/null. -/
def repoNoBranch : RepoItem := ⟨"rb", none, false⟩

/-- A concrete tree node of blob type. -/
def blobNode : TreeNode := ⟨"blob", "a.txt", some 10⟩

/-- A concrete tree node of non-blob (subtree) type. -/
def dirNode : TreeNode := ⟨"tree", "docs", none⟩

/-- Oracle: every tree request succeeds with a tree whose only node is a
non-blob subtree marker. -/
def netE : String → Nat → Except String (Response TreeJson) :=
  fun _ _ => .ok ⟨200, none, none, ⟨[dirNode]⟩, ""⟩

/-- Oracle: every tree request raises a transport-level exception. -/
def netT : String → Nat → Except String (Response TreeJson) :=
  fun _ _ => .error "ConnectionError: refused"

/-- Oracle: every tree request succeeds with one blob and one subtree node. -/
def netOk : String → Nat → Except String (Response TreeJson) :=
  fun _ _ => .ok ⟨200, none, none, ⟨[blobNode, dirNode]⟩, ""⟩

/-- Oracle: every tree request fails with a 500 status. -/
def netFail : String → Nat → Except String (Response TreeJson) :=
  fun _ _ => .ok ⟨500, none, none, ⟨[]⟩, "boom"⟩

/-- Oracle: the direct tree request for `o/r@main` returns 404 and the
qualified-ref follow-up returns 500. -/
def net404f : String → Nat → Except String (Response TreeJson) :=
  fun url _ =>
    if url = tree_url "o" "r" "main" then .ok ⟨404, none, none, ⟨[]⟩, "Not Found"⟩
    else .ok ⟨500, none, none, ⟨[]⟩, "boom"⟩

/-- Oracle for one `github_get` call: every attempt answers 403 with
`X-RateLimit-Remaining: 0` and `X-RateLimit-Reset: 110`. -/
def attemptRL : Nat → Except String (Response Unit) :=
  fun _ => .ok ⟨403, some "0", some 110, (), ""⟩

/-- Listing oracle: every page request succeeds with the single-item
(short) page `[repo0]`. -/
def netL : ListRequest → Nat → Except String (Response (List RepoItem)) :=
  fun _ _ => .ok ⟨200, none, none, [repo0], ""⟩

/-- Listing oracle: every page request succeeds with zero items (an
account with no repositories). -/
def netL0 : ListRequest → Nat → Except String (Response (List RepoItem)) :=
  fun _ _ => .ok ⟨200, none, none, [], ""⟩

theorem blob_rows_eq_filter_map (owner repo_name branch : String) (nodes : List TreeNode) :
    blob_rows owner repo_name branch nodes =
      (nodes.filter (fun node => node.type_ == "blob")).map
        (success_row owner repo_name branch) := by
  induction nodes with
  | nil => rfl
  | cons node rest ih =>
    by_cases h : node.type_ = "blob" <;> simp [blob_rows, h, ih, List.filter_cons]

theorem mem_blob_rows {owner repo_name branch : String} {row : Row} {nodes : List TreeNode} :
    row ∈ blob_rows owner repo_name branch nodes ↔
      ∃ node ∈ nodes, node.type_ = "blob" ∧ success_row owner repo_name branch node = row := by
  rw [blob_rows_eq_filter_map]
  simp only [List.mem_map, List.mem_filter, beq_iff_eq]
  constructor
  · rintro ⟨node, ⟨hn, ht⟩, he⟩
    exact ⟨node, hn, ht, he⟩
  · rintro ⟨node, hn, ht, he⟩
    exact ⟨node, ⟨hn, ht⟩, he⟩

theorem build_rows_of_error {owner : String} {repo_item : RepoItem}
    {net : String → Nat → Except String (Response TreeJson)} {now : Int} {e : FetchError}
    (h : (get_tree_recursive owner repo_item.name (branchOf repo_item) net now).result =
      .error e) :
    build_raw_rows_for_repo owner repo_item net now =
      ([error_row repo_item.name (branchOf repo_item) e.message],
        (get_tree_recursive owner repo_item.name (branchOf repo_item) net now).urls) := by
  simp only [build_raw_rows_for_repo]
  rw [h]

theorem build_rows_of_ok {owner : String} {repo_item : RepoItem}
    {net : String → Nat → Except String (Response TreeJson)} {now : Int} {tj : TreeJson}
    (h : (get_tree_recursive owner repo_item.name (branchOf repo_item) net now).result =
      .ok tj) :
    build_raw_rows_for_repo owner repo_item net now =
      (blob_rows owner repo_item.name (branchOf repo_item) tj.tree,
        (get_tree_recursive owner repo_item.name (branchOf repo_item) net now).urls) := by
  simp only [build_raw_rows_for_repo]
  rw [h]

theorem main_collect_cons (owner : String)
    (net : String → Nat → Except String (Response TreeJson)) (now : Int)
    (repo_item : RepoItem) (rest : List RepoItem) :
    main_collect owner net now (repo_item :: rest) =
      (build_raw_rows_for_repo owner repo_item net now).1 ++ main_collect owner net now rest := by
  simp [main_collect]

theorem main_collect_append (owner : String)
    (net : String → Nat → Except String (Response TreeJson)) (now : Int)
    (rs1 rs2 : List RepoItem) :
    main_collect owner net now (rs1 ++ rs2) =
      main_collect owner net now rs1 ++ main_collect owner net now rs2 := by
  simp [main_collect]

theorem mem_main_collect {owner : String}
    {net : String → Nat → Except String (Response TreeJson)} {now : Int}
    {repos : List RepoItem} {repo_item : RepoItem} {row : Row}
    (hmem : repo_item ∈ repos)
    (hrow : row ∈ (build_raw_rows_for_repo owner repo_item net now).1) :
    row ∈ main_collect owner net now repos := by
  simp only [main_collect, List.mem_flatMap]
  exact ⟨repo_item, hmem, hrow⟩

theorem get_tree_of_transport {owner repo branch : String}
    {net : String → Nat → Except String (Response TreeJson)} {now : Int} {e : String}
    (h : github_get (net (tree_url owner repo branch)) now = .error e) :
    get_tree_recursive owner repo branch net now =
      ⟨.error (.transport e), [tree_url owner repo branch]⟩ := by
  simp only [get_tree_recursive]
  rw [h]

theorem get_tree_of_200 {owner repo branch : String}
    {net : String → Nat → Except String (Response TreeJson)} {now : Int}
    {g : GetResult TreeJson}
    (h : github_get (net (tree_url owner repo branch)) now = .ok g)
    (hs : g.response.status = 200) :
    get_tree_recursive owner repo branch net now =
      ⟨.ok g.response.body, [tree_url owner repo branch]⟩ := by
  simp only [get_tree_recursive]
  rw [h]
  simp [hs]

theorem get_tree_of_bad {owner repo branch : String}
    {net : String → Nat → Except String (Response TreeJson)} {now : Int}
    {g : GetResult TreeJson}
    (h : github_get (net (tree_url owner repo branch)) now = .ok g)
    (h404 : g.response.status ≠ 404) (h200 : g.response.status ≠ 200) :
    get_tree_recursive owner repo branch net now =
      ⟨.error (.runtime (tree_error_msg owner repo branch g.response.status g.response.text)),
        [tree_url owner repo branch]⟩ := by
  simp only [get_tree_recursive]
  rw [h]
  simp [h404, h200]

theorem get_tree_of_404_transport {owner repo branch : String}
    {net : String → Nat → Except String (Response TreeJson)} {now : Int}
    {g : GetResult TreeJson} {e : String}
    (h : github_get (net (tree_url owner repo branch)) now = .ok g)
    (h404 : g.response.status = 404)
    (h2 : github_get (net (tree_url_qualified owner repo branch)) now = .error e) :
    get_tree_recursive owner repo branch net now =
      ⟨.error (.transport e),
        [tree_url owner repo branch, tree_url_qualified owner repo branch]⟩ := by
  simp only [get_tree_recursive]
  rw [h]
  simp only [h404, if_pos rfl, ite_true, if_true]
  rw [h2]

theorem get_tree_of_404_ok {owner repo branch : String}
    {net : String → Nat → Except String (Response TreeJson)} {now : Int}
    {g g2 : GetResult TreeJson}
    (h : github_get (net (tree_url owner repo branch)) now = .ok g)
    (h404 : g.response.status = 404)
    (h2 : github_get (net (tree_url_qualified owner repo branch)) now = .ok g2) :
    get_tree_recursive owner repo branch net now =
      (if g2.response.status ≠ 200 then
        ⟨.error (.runtime (tree_error_msg owner repo branch g2.response.status
          g2.response.text)),
          [tree_url owner repo branch, tree_url_qualified owner repo branch]⟩
      else
        ⟨.ok g2.response.body,
          [tree_url owner repo branch, tree_url_qualified owner repo branch]⟩) := by
  simp only [get_tree_recursive]
  rw [h]
  simp only [h404, if_pos rfl, ite_true, if_true]
  rw [h2]

theorem list_repos_loop_spec (owner : String)
    (net : ListRequest → Nat → Except String (Response (List RepoItem))) (now : Int) :
    ∀ (fuel page : Nat) (acc : List RepoItem) (res : Except FetchError (List RepoItem))
      (reqs : List ListRequest),
      list_repos_loop owner net now page acc fuel = some (res, reqs) →
      ∃ m : Nat,
        reqs = (List.range' page (m + 1)).map list_req ∧
        (∀ i, i < m → page_full net now (page + i)) ∧
        ((page_last net now (page + m) ∧
            res = .ok (acc ++ (List.range' page (m + 1)).flatMap (page_items net now))) ∨
          (page_fatal net now (page + m) ∧ ∃ e, res = .error e)) := by
  intro fuel
  induction fuel with
  | zero =>
    intro page acc res reqs h
    simp [list_repos_loop] at h
  | succ fuel ih =>
    intro page acc res reqs h
    have hpi : page_items net now page =
        match github_get (net (list_req page)) now with
        | .ok g => g.response.body
        | .error _ => [] := rfl
    rcases hg : github_get (net (list_req page)) now with e | g
    all_goals rw [list_repos_loop] at h
    · rw [hg] at h
      simp only [Option.some.injEq, Prod.mk.injEq] at h
      refine ⟨0, ?_, by omega, .inr ⟨.inl ⟨e, ?_⟩, FetchError.transport e, ?_⟩⟩
      · simp [← h.2, List.range'_one]
      · simpa [page_result] using hg
      · exact h.1.symm
    · rw [hg] at h
      by_cases hs : g.response.status = 200
      · simp only [hs, ne_eq, not_true_eq_false, if_false, ite_false] at h
        by_cases hemp : g.response.body = []
        · simp only [hemp, if_pos rfl, ite_true, if_true, Option.some.injEq,
            Prod.mk.injEq] at h
          refine ⟨0, ?_, by omega, .inl ⟨⟨g, ?_, hs, ?_⟩, ?_⟩⟩
          · simp [h.2, List.range'_one]
          · simpa [page_result] using hg
          · simp [hemp, PER_PAGE]
          · rw [← h.1]
            simp [List.range'_one, hpi, hg, hemp]
        · by_cases hshort : g.response.body.length < PER_PAGE
          · simp only [hemp, hshort, if_pos, if_neg, ite_true, ite_false, if_true,
              if_false, Option.some.injEq, Prod.mk.injEq] at h
            refine ⟨0, ?_, by omega, .inl ⟨⟨g, ?_, hs, hshort⟩, ?_⟩⟩
            · simp [h.2, List.range'_one]
            · simpa [page_result] using hg
            · rw [← h.1]
              simp [List.range'_one, hpi, hg]
          · simp only [hemp, hshort, if_neg, ite_false, if_false] at h
            rcases hrec : list_repos_loop owner net now (page + 1) (acc ++ g.response.body)
                fuel with _ | p
            · rw [hrec] at h
              simp at h
            · rcases p with ⟨res', reqs'⟩
              rw [hrec] at h
              simp only [Option.some.injEq, Prod.mk.injEq] at h
              obtain ⟨m', hreqs', hfull', hend'⟩ :=
                ih (page + 1) (acc ++ g.response.body) res' reqs' hrec
              refine ⟨m' + 1, ?_, ?_, ?_⟩
              · rw [← h.2, hreqs']
                simp [List.range'_succ]
              · intro i hi
                rcases i with _ | j
                · exact ⟨g, by simpa [page_result] using hg, hs, by omega⟩
                · have h2 := hfull' j (by omega)
                  rwa [show page + 1 + j = page + (j + 1) by omega] at h2
              · have hstep : (List.range' page (m' + 1 + 1)).flatMap (page_items net now) =
                    g.response.body ++
                      (List.range' (page + 1) (m' + 1)).flatMap (page_items net now) := by
                  rw [List.range'_succ]
                  simp [hpi, hg]
                rcases hend' with ⟨hlast, hres⟩ | ⟨hfatal, e, hres⟩
                · refine .inl ⟨?_, ?_⟩
                  · rwa [show page + 1 + m' = page + (m' + 1) by omega] at hlast
                  · rw [← h.1, hres, hstep]
                    simp [List.append_assoc]
                · refine .inr ⟨?_, e, by rw [← h.1, hres]⟩
                  rwa [show page + 1 + m' = page + (m' + 1) by omega] at hfatal
      · simp only [hs, ne_eq, not_false_eq_true, if_pos, ite_true, if_true,
          Option.some.injEq, Prod.mk.injEq] at h
        refine ⟨0, ?_, by omega, .inr ⟨.inr ⟨g, ?_, hs⟩, ?_⟩⟩
        · simp [h.2, List.range'_one]
        · simpa [page_result] using hg
        · exact ⟨_, h.1.symm⟩

theorem get_tree_urls_head (owner repo branch : String)
    (net : String → Nat → Except String (Response TreeJson)) (now : Int) :
    (get_tree_recursive owner repo branch net now).urls.head? =
      some (tree_url owner repo branch) := by
  simp only [get_tree_recursive]
  split
  · rfl
  · split
    · split
      · rfl
      · split <;> rfl
    · split <;> rfl

theorem build_urls_eq (owner : String) (repo_item : RepoItem)
    (net : String → Nat → Except String (Response TreeJson)) (now : Int) :
    (build_raw_rows_for_repo owner repo_item net now).2 =
      (get_tree_recursive owner repo_item.name (branchOf repo_item) net now).urls := by
  simp only [build_raw_rows_for_repo]
  split <;> rfl

theorem build_row_fields (owner : String) (repo_item : RepoItem)
    (net : String → Nat → Except String (Response TreeJson)) (now : Int) :
    ∀ row ∈ (build_raw_rows_for_repo owner repo_item net now).1,
      row.repo = repo_item.name ∧ row.branch = branchOf repo_item ∧
      ∀ u, row.raw_url = some u →
        ∃ p, u = raw_url_for owner repo_item.name (branchOf repo_item) p := by
  intro row hrow
  rcases hres : (get_tree_recursive owner repo_item.name (branchOf repo_item) net now).result
    with e | tj
  · rw [build_rows_of_error hres] at hrow
    simp only [List.mem_singleton] at hrow
    subst hrow
    exact ⟨rfl, rfl, fun u hu => by simp [error_row] at hu⟩
  · rw [build_rows_of_ok hres] at hrow
    obtain ⟨node, _, _, he⟩ := mem_blob_rows.mp hrow
    rw [← he]
    exact ⟨rfl, rfl, fun u hu => ⟨node.path, by simpa [success_row] using hu.symm⟩⟩

/-- C3: for every GET whose first response is a 403 with the
rate-limit-remaining header equal to zero, the client waits exactly
`max(5, reset - now + 3)` seconds and reissues the request exactly once,
returning the second response as-is (even if it is again a rate-limit
failure); any first response not matching the 403-with-remaining-zero
condition is returned unmodified, with no retry and no wait. -/
theorem c3_rate_limit_single_retry {β : Type} (attempt : Nat → Except String (Response β))
    (now : Int) (r : Response β) (h0 : attempt 0 = .ok r) :
    (∀ t : Int, r.status = 403 → r.rateLimitRemaining = some "0" →
      r.rateLimitReset = some t →
      github_get attempt now =
        (attempt 1).map (fun r2 => ⟨r2, [max 5 (t - now + 3)], 2⟩)) ∧
    (¬(r.status = 403 ∧ r.rateLimitRemaining = some "0") →
      github_get attempt now = .ok ⟨r, [], 1⟩) := by
  constructor
  · intro t hs hrem hres
    simp only [github_get]
    rw [h0]
    simp only [hs, hrem, and_self, if_pos, ite_true, if_true]
    rcases h1 : attempt 1 with e | r2 <;> simp [Except.map, resetOrDefault, hres]
  · intro hnot
    simp only [github_get]
    rw [h0]
    simp [hnot]

/-- Witness for C3: a first response of 403 with remaining `"0"` and a
reset 10 seconds in the future makes the client sleep exactly 13 seconds
(10 + 3 margin) and issue exactly 2 requests, returning the second
response (itself again rate-limited) as-is. -/
theorem c3_rate_limit_single_retry_witness :
    github_get attemptRL 100 =
      .ok ⟨⟨403, some "0", some 110, (), ""⟩, [13], 2⟩ := by
  have h := (c3_rate_limit_single_retry attemptRL 100
    ⟨403, some "0", some 110, (), ""⟩ rfl).1 110 rfl rfl rfl
  rw [h]
  decide

/-- C4: a 404 on the direct tree request triggers exactly one follow-up
request against the qualified `refs/heads/<branch>` form, and a
non-success status on the follow-up — or any non-404 non-success status
on the first request, which triggers no follow-up — makes the walk fail
with a raised error. -/
theorem c4_not_found_fallback (owner repo branch : String)
    (net : String → Nat → Except String (Response TreeJson)) (now : Int) :
    (∀ g, github_get (net (tree_url owner repo branch)) now = .ok g →
      g.response.status = 404 →
      (get_tree_recursive owner repo branch net now).urls =
          [tree_url owner repo branch, tree_url_qualified owner repo branch] ∧
        ∀ g2, github_get (net (tree_url_qualified owner repo branch)) now = .ok g2 →
          g2.response.status ≠ 200 →
          ∃ e, (get_tree_recursive owner repo branch net now).result = .error e) ∧
    (∀ g, github_get (net (tree_url owner repo branch)) now = .ok g →
      g.response.status ≠ 404 → g.response.status ≠ 200 →
      (get_tree_recursive owner repo branch net now).urls = [tree_url owner repo branch] ∧
        ∃ e, (get_tree_recursive owner repo branch net now).result = .error e) := by
  constructor
  · intro g hg h404
    constructor
    · rcases h2 : github_get (net (tree_url_qualified owner repo branch)) now with e | g2
      · rw [get_tree_of_404_transport hg h404 h2]
      · rw [get_tree_of_404_ok hg h404 h2]
        split <;> rfl
    · intro g2 h2 h200
      rw [get_tree_of_404_ok hg h404 h2, if_pos h200]
      exact ⟨_, rfl⟩
  · intro g hg h404 h200
    rw [get_tree_of_bad hg h404 h200]
    exact ⟨rfl, _, rfl⟩

/-- Witness for C4: with a direct request answering 404 and the
qualified-ref follow-up answering 500, the walker issues exactly the two
requests and fails. -/
theorem c4_not_found_fallback_witness :
    (get_tree_recursive "o" "r" "main" net404f 0).urls =
        [tree_url "o" "r" "main", tree_url_qualified "o" "r" "main"] ∧
      ∃ e, (get_tree_recursive "o" "r" "main" net404f 0).result = .error e := by
  have h := (c4_not_found_fallback "o" "r" "main" net404f 0).1
    ⟨⟨404, none, none, ⟨[]⟩, "Not Found"⟩, [], 1⟩ rfl rfl
  exact ⟨h.1, h.2 ⟨⟨500, none, none, ⟨[]⟩, "boom"⟩, [], 1⟩ rfl (by decide)⟩

/-- C5: when the tree retrieval fails (whatever the raised error), the
row builder emits exactly one error row: the repository name, null path,
null size, null raw_url, the attempted branch, and the non-null failure
description. -/
theorem c5_single_error_row (owner : String) (repo_item : RepoItem)
    (net : String → Nat → Except String (Response TreeJson)) (now : Int) (e : FetchError)
    (h : (get_tree_recursive owner repo_item.name (branchOf repo_item) net now).result =
      .error e) :
    (build_raw_rows_for_repo owner repo_item net now).1 =
      [{ repo := repo_item.name, path := none, size := none, branch := branchOf repo_item,
         raw_url := none, error := some e.message }] := by
  rw [build_rows_of_error h]
  rfl

/-- Witness for C5: a 500 on the tree request of `repo0` yields exactly
the sentinel error row. -/
theorem c5_single_error_row_witness :
    (build_raw_rows_for_repo "o" repo0 netFail 0).1 =
      [{ repo := "r", path := none, size := none, branch := "main", raw_url := none,
         error := some (tree_error_msg "o" "r" "main" 500 "boom") }] :=
  c5_single_error_row "o" repo0 netFail 0
    (.runtime (tree_error_msg "o" "r" "main" 500 "boom")) rfl

/-- C6: when the tree fetch succeeds, every row produced has null error,
non-null path and non-null raw_url, and the raw_url is exactly
`https://raw.githubusercontent.com/<owner>/<repo>/<branch>/<path>` with
the repository's own name, the branch actually used, and the node's path
substituted verbatim. -/
theorem c6_success_rows (owner : String) (repo_item : RepoItem)
    (net : String → Nat → Except String (Response TreeJson)) (now : Int) (tj : TreeJson)
    (h : (get_tree_recursive owner repo_item.name (branchOf repo_item) net now).result =
      .ok tj) :
    ∀ row ∈ (build_raw_rows_for_repo owner repo_item net now).1,
      row.error = none ∧
      ∃ node ∈ tj.tree, node.type_ = "blob" ∧
        row.repo = repo_item.name ∧
        row.branch = branchOf repo_item ∧
        row.path = some node.path ∧
        row.raw_url = some ("https://raw.githubusercontent.com/" ++ owner ++ "/" ++
          repo_item.name ++ "/" ++ branchOf repo_item ++ "/" ++ node.path) := by
  intro row hrow
  rw [build_rows_of_ok h] at hrow
  obtain ⟨node, hn, ht, he⟩ := mem_blob_rows.mp hrow
  rw [← he]
  exact ⟨rfl, node, hn, ht, rfl, rfl, rfl, rfl⟩

/-- Witness for C6: with a successful fetch of a tree holding one blob
node `a.txt`, the blob's row is produced and satisfies all the field
properties, including the exact raw URL. -/
theorem c6_success_rows_witness :
    success_row "o" "r" "main" blobNode ∈ (build_raw_rows_for_repo "o" repo0 netOk 0).1 ∧
    ((success_row "o" "r" "main" blobNode).error = none ∧
      ∃ node ∈ (⟨[blobNode, dirNode]⟩ : TreeJson).tree, node.type_ = "blob" ∧
        (success_row "o" "r" "main" blobNode).repo = "r" ∧
        (success_row "o" "r" "main" blobNode).branch = "main" ∧
        (success_row "o" "r" "main" blobNode).path = some node.path ∧
        (success_row "o" "r" "main" blobNode).raw_url =
          some ("https://raw.githubusercontent.com/" ++ "o" ++ "/" ++ "r" ++ "/" ++
            "main" ++ "/" ++ node.path)) :=
  ⟨by decide, c6_success_rows "o" repo0 netOk 0 ⟨[blobNode, dirNode]⟩ rfl
    (success_row "o" "r" "main" blobNode) (by decide)⟩

/-- C8: when the tree fetch succeeds, the rows are exactly one per node
of blob type, in tree order — a node whose type is not `"blob"`
contributes no row. -/
theorem c8_non_blob_no_row (owner : String) (repo_item : RepoItem)
    (net : String → Nat → Except String (Response TreeJson)) (now : Int) (tj : TreeJson)
    (h : (get_tree_recursive owner repo_item.name (branchOf repo_item) net now).result =
      .ok tj) :
    (build_raw_rows_for_repo owner repo_item net now).1 =
      (tj.tree.filter (fun node => node.type_ == "blob")).map
        (success_row owner repo_item.name (branchOf repo_item)) := by
  rw [build_rows_of_ok h]
  exact blob_rows_eq_filter_map owner repo_item.name (branchOf repo_item) tj.tree

/-- Witness for C8: a tree with one blob and one subtree node yields
exactly the blob's row; the subtree node contributes nothing. -/
theorem c8_non_blob_no_row_witness :
    (build_raw_rows_for_repo "o" repo0 netOk 0).1 =
      ((⟨[blobNode, dirNode]⟩ : TreeJson).tree.filter
        (fun node => node.type_ == "blob")).map (success_row "o" "r" "main") :=
  c8_non_blob_no_row "o" repo0 netOk 0 ⟨[blobNode, dirNode]⟩ rfl

/-- C10: when the repository record's `default_branch` is absent/null or
the empty string, the literal branch `"main"` is used for the tree
request URL, for every row's branch column, and inside every constructed
raw-content URL. -/
theorem c10_default_branch_main (owner : String) (repo_item : RepoItem)
    (net : String → Nat → Except String (Response TreeJson)) (now : Int)
    (h : repo_item.default_branch = none ∨ repo_item.default_branch = some "") :
    branchOf repo_item = "main" ∧
    (build_raw_rows_for_repo owner repo_item net now).2.head? =
      some (tree_url owner repo_item.name "main") ∧
    (∀ row ∈ (build_raw_rows_for_repo owner repo_item net now).1, row.branch = "main") ∧
    (∀ row ∈ (build_raw_rows_for_repo owner repo_item net now).1, ∀ u,
      row.raw_url = some u → ∃ p, u = raw_url_for owner repo_item.name "main" p) := by
  have hb : branchOf repo_item = "main" := by
    rcases h with h | h <;> simp [branchOf, h]
  refine ⟨hb, ?_, ?_, ?_⟩
  · rw [build_urls_eq, get_tree_urls_head, hb]
  · intro row hrow
    rw [(build_row_fields owner repo_item net now row hrow).2.1, hb]
  · intro row hrow u hu
    obtain ⟨p, hp⟩ := (build_row_fields owner repo_item net now row hrow).2.2 u hu
    exact ⟨p, by rw [hp, hb]⟩

/-- Witness for C10: a record with a null `default_branch` gets branch
`"main"` in the request URL, the row's branch column, and the raw URL. -/
theorem c10_default_branch_main_witness :
    branchOf repoNoBranch = "main" ∧
    (build_raw_rows_for_repo "o" repoNoBranch netOk 0).2.head? =
      some (tree_url "o" "rb" "main") ∧
    (success_row "o" "rb" "main" blobNode).branch = "main" ∧
    ∃ p, raw_url_for "o" "rb" "main" "a.txt" = raw_url_for "o" "rb" "main" p := by
  have h := c10_default_branch_main "o" repoNoBranch netOk 0 (.inl rfl)
  exact ⟨h.1, h.2.1, h.2.2.1 _ (by decide),
    h.2.2.2 (success_row "o" "rb" "main" blobNode) (by decide)
      (raw_url_for "o" "rb" "main" "a.txt") rfl⟩

/-- Counterexample to C1 as stated: `repo0` is submitted as a worker
task and its tree fetch even succeeds, but the tree holds only a
non-blob node, so the final row collection contains no row at all for
this repository. -/
theorem c1_counterexample :
    repo0 ∈ [repo0] ∧
    (get_tree_recursive "o" repo0.name (branchOf repo0) netE 0).result =
      .ok ⟨[dirNode]⟩ ∧
    ¬ ∃ row ∈ main_collect "o" netE 0 [repo0], row.repo = repo0.name := by
  decide

/-- C1 (amended): every attempted repository whose tree fetch fails, or
whose fetched tree contains at least one blob node, contributes at least
one row to the final collection; a repository whose fetch succeeds with
no blob nodes contributes zero rows. -/
theorem c1_amended_repo_represented (owner : String)
    (net : String → Nat → Except String (Response TreeJson)) (now : Int)
    (repos : List RepoItem) (repo_item : RepoItem) (hmem : repo_item ∈ repos)
    (h : (∃ e, (get_tree_recursive owner repo_item.name (branchOf repo_item) net
        now).result = .error e) ∨
      (∃ tj, (get_tree_recursive owner repo_item.name (branchOf repo_item) net
          now).result = .ok tj ∧ ∃ node ∈ tj.tree, node.type_ = "blob")) :
    ∃ row ∈ main_collect owner net now repos, row.repo = repo_item.name := by
  rcases h with ⟨e, he⟩ | ⟨tj, htj, node, hn, ht⟩
  · refine ⟨error_row repo_item.name (branchOf repo_item) e.message,
      mem_main_collect hmem ?_, rfl⟩
    rw [build_rows_of_error he]
    exact List.mem_singleton.mpr rfl
  · refine ⟨success_row owner repo_item.name (branchOf repo_item) node,
      mem_main_collect hmem ?_, rfl⟩
    rw [build_rows_of_ok htj]
    exact mem_blob_rows.mpr ⟨node, hn, ht, rfl⟩

/-- Witness for amended C1: `repo0`'s tree fetch fails with a 500, and
its sentinel error row appears in the collection. -/
theorem c1_amended_repo_represented_witness :
    repo0 ∈ [repo0] ∧
    (∃ e, (get_tree_recursive "o" repo0.name (branchOf repo0) netFail 0).result =
      .error e) ∧
    ∃ row ∈ main_collect "o" netFail 0 [repo0], row.repo = repo0.name :=
  ⟨by decide, ⟨_, rfl⟩,
    c1_amended_repo_represented "o" netFail 0 [repo0] repo0 (by decide) (.inl ⟨_, rfl⟩)⟩

/-- Counterexample to C2 as stated: a transport-level exception (a
connection failure) is raised during `repo0`'s tree fetch, yet the
repository contributes one sentinel error row to the aggregate — not
zero rows — because the row builder catches every exception around the
fetch before it can reach the aggregator boundary. -/
theorem c2_counterexample :
    (get_tree_recursive "o" repo0.name (branchOf repo0) netT 0).result =
      .error (.transport "ConnectionError: refused") ∧
    main_collect "o" netT 0 [repo0] =
      [error_row "r" "main" "ConnectionError: refused"] ∧
    ¬ main_collect "o" netT 0 [repo0] = [] := by
  decide

/-- C2 (amended): a network/transport-level exception raised during the
tree fetch is caught inside the worker task's row builder rather than at
the aggregator boundary: the repository contributes exactly one sentinel
error row carrying the exception's description, and the other
repositories' contributions are unaffected. -/
theorem c2_amended_transport_caught_in_builder (owner : String) (repo_item : RepoItem)
    (net : String → Nat → Except String (Response TreeJson)) (now : Int) (m : String)
    (pre post : List RepoItem)
    (h : (get_tree_recursive owner repo_item.name (branchOf repo_item) net now).result =
      .error (.transport m)) :
    (build_raw_rows_for_repo owner repo_item net now).1 =
      [error_row repo_item.name (branchOf repo_item) m] ∧
    main_collect owner net now (pre ++ repo_item :: post) =
      main_collect owner net now pre ++
        error_row repo_item.name (branchOf repo_item) m :: main_collect owner net now post := by
  have h1 : (build_raw_rows_for_repo owner repo_item net now).1 =
      [error_row repo_item.name (branchOf repo_item) m] := by
    rw [build_rows_of_error h]
    rfl
  refine ⟨h1, ?_⟩
  rw [main_collect_append, main_collect_cons, h1]
  simp

/-- Witness for amended C2: the transport failure of `netT` yields
exactly `repo0`'s error row, alone in the single-repository aggregate. -/
theorem c2_amended_transport_caught_in_builder_witness :
    (build_raw_rows_for_repo "o" repo0 netT 0).1 =
      [error_row "r" "main" "ConnectionError: refused"] ∧
    main_collect "o" netT 0 ([] ++ repo0 :: []) =
      main_collect "o" netT 0 [] ++
        error_row "r" "main" "ConnectionError: refused" :: main_collect "o" netT 0 [] :=
  c2_amended_transport_caught_in_builder "o" repo0 netT 0
    "ConnectionError: refused" [] [] rfl

/-- C7: the lister requests consecutive pages starting at page 1, each
with a fixed page size of 100; every page before the last came back 200
with a full page; on success the result is the in-order concatenation of
all pages' items and the last page came back 200 with zero items or a
short page; and as soon as any page fails (non-200 status or transport
error) the whole listing raises, yielding no partial results. -/
theorem c7_lister_pagination (owner : String)
    (net : ListRequest → Nat → Except String (Response (List RepoItem))) (now : Int)
    (fuel : Nat) (res : Except FetchError (List RepoItem)) (reqs : List ListRequest)
    (h : list_repos_for_user owner net now fuel = some (res, reqs)) :
    ∃ m : Nat,
      reqs = (List.range' 1 (m + 1)).map list_req ∧
      (∀ q ∈ reqs, q.per_page = PER_PAGE) ∧
      (∀ i, i < m → page_full net now (1 + i)) ∧
      ((page_last net now (1 + m) ∧
          res = .ok ((List.range' 1 (m + 1)).flatMap (page_items net now))) ∨
        (page_fatal net now (1 + m) ∧ ∃ e, res = .error e)) := by
  obtain ⟨m, hreqs, hfull, hend⟩ := list_repos_loop_spec owner net now fuel 1 [] res reqs h
  refine ⟨m, hreqs, ?_, hfull, by simpa using hend⟩
  intro q hq
  rw [hreqs] at hq
  obtain ⟨j, _, hj⟩ := List.mem_map.mp hq
  rw [← hj]
  rfl

/-- Witness for C7: with every page answering 200 and the single-item
short page `[repo0]`, the lister issues exactly the page-1 request with
page size 100 and returns `[repo0]`. -/
theorem c7_lister_pagination_witness :
    ∃ m : Nat,
      [list_req 1] = (List.range' 1 (m + 1)).map list_req ∧
      (∀ q ∈ [list_req 1], q.per_page = PER_PAGE) ∧
      (∀ i, i < m → page_full netL 0 (1 + i)) ∧
      ((page_last netL 0 (1 + m) ∧
          Except.ok (ε := FetchError) [repo0] =
            .ok ((List.range' 1 (m + 1)).flatMap (page_items netL 0))) ∨
        (page_fatal netL 0 (1 + m) ∧
          ∃ e, Except.ok (ε := FetchError) [repo0] = .error e)) :=
  c7_lister_pagination "o" netL 0 2 (.ok [repo0]) [list_req 1] rfl

/-- C9: when the repository listing succeeds and the collected row set
is empty, the run exits successfully and writes no output file. -/
theorem c9_empty_rows_success (owner : String)
    (netList : ListRequest → Nat → Except String (Response (List RepoItem)))
    (netTree : String → Nat → Except String (Response TreeJson)) (now : Int)
    (fuel : Nat) (onlyPublic : Bool) (repos0 : List RepoItem) (reqs : List ListRequest)
    (hl : list_repos_for_user owner netList now fuel = some (.ok repos0, reqs))
    (he : main_collect owner netTree now
      (if onlyPublic then repos0.filter (fun r => !r.isPrivate) else repos0) = []) :
    main_run owner netList netTree now fuel onlyPublic = some ⟨true, false⟩ := by
  simp only [main_run]
  rw [hl]
  simp [he]

/-- Witness for C9: an account with zero repositories lists successfully,
collects zero rows, and the run exits 0 with no output file. -/
theorem c9_empty_rows_success_witness :
    main_run "o" netL0 netE 0 1 false = some ⟨true, false⟩ :=
  c9_empty_rows_success "o" netL0 netE 0 1 false [] [list_req 1] rfl rfl
